import Mathlib

/-!
Verification of the facial-recognition pipeline in
`src/python-face-recognition.py` via a shallow embedding.

The external collaborators (image decoding, face detection/encoding, the
KNN library's neighbour search and prediction) are modelled as abstract
functions; each call that may raise a Python exception is modelled as a
value in `Except String _`.  Distances and the tolerance are modelled as
rationals.  Embeddings are an abstract type `α`; labels are strings.
-/

namespace FaceRec

/-- Lowercase a string character by character, modelling Python `str.lower()`
on the ASCII file names involved. -/
def strLower (s : String) : String := ⟨s.data.map Char.toLower⟩

/-- Suffix test on strings, modelling Python `str.endswith`. -/
def strEndsWith (s suffix : String) : Bool := suffix.data.isSuffixOf s.data

/-- The tuple of extensions in `file_path.lower().endswith(('.png', '.jpg', '.jpeg'))`
(source lines 61 and 131). -/
def imageExts : List String := [".png", ".jpg", ".jpeg"]

/-- Case-insensitive image-extension check applied to a full path,
modelling `file_path.lower().endswith(('.png', '.jpg', '.jpeg'))`. -/
def hasImageExt (p : String) : Bool := imageExts.any (fun e => strEndsWith (strLower p) e)

/-- Path join `os.path.join(a, b)` for the non-absolute names used here. -/
def pathJoin (a b : String) : String := a ++ "/" ++ b

/-- What `KNeighborsClassifier(n_neighbors=...).fit(X, y)` stores: the chosen
neighbour count and the training samples (embedding, label) in order
(source lines 81-82).  The library's search/prediction behaviour over this
data is delegated and modelled separately by `Classifier`. -/
structure KNNModel (α : Type) where
  n_neighbors : Nat
  samples : List (α × String)
deriving DecidableEq

/-- Behaviour of a fitted classifier as used by `recognize`:
`kneighbors` returns the nearest-neighbour distance
(`closest_distances[0][0][0]`, line 111) and `predict` the predicted label
(`self.model.predict([face_encoding])[0]`, line 115); either library call
may raise, hence `Except`. -/
structure Classifier (α : Type) where
  kneighbors : α → Except String ℚ
  predict : α → Except String String

/-- The engine state: `model_path` and the single mutable field `model`
(lines 15-18). -/
structure Engine (κ : Type) where
  model_path : String
  model : Option κ
deriving DecidableEq

/-- Abstract filesystem / vision-library environment.
`listdir` models `os.listdir`, `isDir` models `os.path.isdir`, and
`loadEnc` bundles `face_recognition.load_image_file` +
`face_locations` + `face_encodings` for one path: it either raises
(`.error`) or returns the per-face embeddings in detection order. -/
structure FS (α : Type) where
  listdir : String → List String
  isDir : String → Bool
  loadEnc : String → Except String (List α)

/-- Constructor plus `load_model` (lines 15-29): `model` starts as `None`;
if the model file exists, one deserialization is attempted; a failure is
caught (logged) and leaves `model = None`. `fileExists` models
`os.path.exists(self.model_path)` and `content` the outcome of
`pickle.load`. -/
def initEngine (κ : Type) (model_path : String) (fileExists : Bool)
    (content : Except String κ) : Engine κ :=
  let eng : Engine κ := ⟨model_path, none⟩
  if fileExists then
    match content with
    | .ok m => { eng with model := some m }
    | .error _ => eng
  else eng

/-- The loop of `recognize` over the detected face encodings
(lines 109-117): for each embedding take the nearest-neighbour distance,
compare `<= tolerance`, on a match predict the label and append it if not
already present.  A library exception anywhere aborts the whole loop
(the `try` spans it). -/
def recognizeLoop (c : Classifier α) (tolerance : ℚ) :
    List α → List String → Except String (List String)
  | [], people_found => .ok people_found
  | face_encoding :: rest, people_found =>
    match c.kneighbors face_encoding with
    | .error msg => .error msg
    | .ok d =>
      if d ≤ tolerance then
        match c.predict face_encoding with
        | .error msg => .error msg
        | .ok person_name =>
          recognizeLoop c tolerance rest
            (if person_name ∈ people_found then people_found
             else people_found ++ [person_name])
      else recognizeLoop c tolerance rest people_found

/-- Method `recognize` (lines 89-123).  `beh` is the external KNN library's
behaviour on a fitted model.  With no model loaded it returns `[]`
(lines 96-98); otherwise decode/detect/encode and the per-face loop run
inside one `try`, and any exception yields `[]` (lines 121-123). -/
def recognize (beh : κ → Classifier α) (eng : Engine κ)
    (loadEnc : String → Except String (List α))
    (image_path : String) (tolerance : ℚ) : List String :=
  match eng.model with
  | none => []
  | some m =>
    match loadEnc image_path with
    | .error _ => []
    | .ok face_encodings =>
      match recognizeLoop (beh m) tolerance face_encodings [] with
      | .error _ => []
      | .ok people_found => people_found

/-- Body of the inner training loop (lines 59-77): one candidate image file
of one person's directory.  Skip non-image extensions; decode and encode;
if at least one face is found append the FIRST embedding with the person
name as label; a no-face image or a per-image exception leaves the data
unchanged. -/
def trainOneImage (fs : FS α) (person_dir person_name : String)
    (acc : List (α × String)) (image_file : String) : List (α × String) :=
  let image_path := pathJoin person_dir image_file
  if hasImageExt image_path then
    match fs.loadEnc image_path with
    | .ok (e :: _) => acc ++ [(e, person_name)]
    | .ok [] => acc
    | .error _ => acc
  else acc

/-- Body of the outer training loop (lines 53-77): one entry of the training
directory; non-directories are skipped, otherwise every file in the
person's directory is processed. -/
def trainOnePerson (fs : FS α) (training_dir : String)
    (acc : List (α × String)) (person_name : String) : List (α × String) :=
  let person_dir := pathJoin training_dir person_name
  if fs.isDir person_dir then
    (fs.listdir person_dir).foldl (trainOneImage fs person_dir person_name) acc
  else acc

/-- The dataset-collection phase of `train` (lines 49-77).  The two parallel
lists `face_encodings`, `face_names` are modelled as one list of pairs. -/
def collectTraining (fs : FS α) (training_dir : String) : List (α × String) :=
  (fs.listdir training_dir).foldl (trainOnePerson fs training_dir) []

/-- Method `train` (lines 36-87) together with `save_model` (lines 31-34).
`file` is the current content of the model file (`none` = absent).
Returns the reported count, the updated engine, and the updated file
content: with at least one embedding a `KNNModel` with
`n_neighbors = min(5, count)` is fitted, stored and saved; with zero
embeddings nothing is touched and 0 is returned. -/
def train (eng : Engine (KNNModel α)) (file : Option (KNNModel α))
    (fs : FS α) (training_dir : String) :
    Nat × Engine (KNNModel α) × Option (KNNModel α) :=
  let data := collectTraining fs training_dir
  if data.length > 0 then
    let m : KNNModel α := ⟨min 5 data.length, data⟩
    (data.length, { eng with model := some m }, some m)
  else
    (0, eng, file)

/-- One entry of the batch result: either a list of labels or an
`{"error": message}` value. -/
abbrev ResultEntry := Sum (List String) String

/-- Body of the loop of `process_directory` (lines 129-139), with the
per-file call abstracted as `rec` (in the script it is
`engine.recognize(file_path)`, which may in principle raise): skip
non-image names, store the labels on success and `{"error": message}`
under the same filename when the call raises.  The Python dict in
insertion order is an association list. -/
def processOne (rec : String → Except String (List String))
    (directory_path : String) (results : List (String × ResultEntry))
    (filename : String) : List (String × ResultEntry) :=
  let file_path := pathJoin directory_path filename
  if hasImageExt file_path then
    match rec file_path with
    | .ok people => results ++ [(filename, Sum.inl people)]
    | .error e => results ++ [(filename, Sum.inr e)]
  else results

/-- The loop of `process_directory` as a fold of `processOne` over the
directory listing. -/
def process_directory (rec : String → Except String (List String))
    (directory_path : String) (listing : List String) :
    List (String × ResultEntry) :=
  listing.foldl (processOne rec directory_path) []

/-- Python truthiness of an optional string flag: `None` and `""` are falsy. -/
def truthyS : Option String → Bool
  | none => false
  | some s => !(s == "")

/-- Parsed command-line arguments (lines 146-154) with their defaults. -/
structure Args where
  train : Option String
  recognize : Option String
  process_dir : Option String
  model : String
  tolerance : ℚ

/-- What the `__main__` block prints, by branch. -/
inductive MainResult (α : Type) where
  | trained (count : Nat)
  | recognized (people : List String)
  | processed (results : List (String × ResultEntry))
  | help
deriving DecidableEq

/-- The `__main__` dispatch (lines 156-168): first truthy flag wins in the
order train, recognize, process-dir, else help.  Only the `--recognize`
branch passes `args.tolerance`; `process_directory` calls
`engine.recognize(file_path)` with the default tolerance `0.6` (line 89),
modelled as `3/5`. -/
def mainRun (args : Args) (fs : FS α) (beh : KNNModel α → Classifier α)
    (eng : Engine (KNNModel α)) (file : Option (KNNModel α)) : MainResult α :=
  if truthyS args.train then
    .trained (train eng file fs (args.train.getD "")).1
  else if truthyS args.recognize then
    .recognized (recognize beh eng fs.loadEnc (args.recognize.getD "") args.tolerance)
  else if truthyS args.process_dir then
    let dir := args.process_dir.getD ""
    .processed (process_directory
      (fun file_path => .ok (recognize beh eng fs.loadEnc file_path (3/5)))
      dir (fs.listdir dir))
  else .help

/-- The list update performed for one matched face (lines 115-117):
append the predicted name unless it is already present. -/
def addNew (people_found : List String) (person_name : String) : List String :=
  if person_name ∈ people_found then people_found else people_found ++ [person_name]

/-- First-occurrence deduplication, stated independently of the code: keep
each element's first occurrence, in order, and drop its later duplicates. -/
def firstDedup : List String → List String
  | [] => []
  | x :: xs => x :: firstDedup (xs.filter (fun y => y ≠ x))
termination_by l => l.length
decreasing_by
  simp only [List.length_cons]
  exact Nat.lt_succ_of_le (List.length_filter_le _ _)

/-- A classifier whose library calls never raise, with distance function `d`
and prediction function `p`. -/
def pureClassifier (d : α → ℚ) (p : α → String) : Classifier α :=
  ⟨fun e => .ok (d e), fun e => .ok (p e)⟩

/-- The sequence of predicted labels of the matching faces, in detection
order: for each embedding within tolerance, its predicted label. -/
def matchedLabels (d : α → ℚ) (p : α → String) (tolerance : ℚ)
    (encs : List α) : List String :=
  encs.filterMap (fun e => if d e ≤ tolerance then some (p e) else none)

/-! Concrete instances used in counterexamples and witnesses. -/

/-- A classifier putting every embedding at distance `1/2` from a neighbour
labelled `alice`. -/
def clfAlice : Classifier Nat := ⟨fun _ => .ok (1/2), fun _ => .ok "alice"⟩

/-- A classifier whose `predict` raises on every embedding other than `0`. -/
def clfBoom : Classifier Nat :=
  ⟨fun _ => .ok (1/2), fun e => if e = 0 then .ok "alice" else .error "boom"⟩

/-- An engine holding an opaque loaded model. -/
def engUnit : Engine Unit := ⟨"face_model.pkl", some ()⟩

/-- Library behaviour interpreting the opaque model as `clfAlice`. -/
def behUnit : Unit → Classifier Nat := fun _ => clfAlice

/-- A directory of three images of which `imgs/bad.jpg` fails to decode. -/
def fsBatch : FS Nat :=
  ⟨fun p => if p = "imgs" then ["a.jpg", "bad.jpg", "c.jpg"] else [],
   fun _ => false,
   fun p => if p = "imgs/bad.jpg" then .error "unable to decode" else .ok [0]⟩

/-- The per-file call made by `process_directory` over `fsBatch`:
`engine.recognize(file_path)` with the default tolerance `0.6`, which never
raises. -/
def recBatch : String → Except String (List String) :=
  fun p => .ok (recognize behUnit engUnit fsBatch.loadEnc p (3/5))

/-- An engine holding a fitted KNN model with a single `alice` sample. -/
def engKNN : Engine (KNNModel Nat) := ⟨"face_model.pkl", some ⟨1, [(0, "alice")]⟩⟩

/-- Library behaviour interpreting any fitted model as `clfAlice`. -/
def behKNN : KNNModel Nat → Classifier Nat := fun _ => clfAlice

/-- A directory with one readable image `imgs/a.jpg`. -/
def fsOne : FS Nat :=
  ⟨fun p => if p = "imgs" then ["a.jpg"] else [], fun _ => false, fun _ => .ok [0]⟩

/-- Command line `--process-dir imgs --tolerance 0.3`. -/
def argsPD : Args := ⟨none, none, some "imgs", "face_model.pkl", 3/10⟩

/-- An empty training directory. -/
def fsEmptyT : FS Nat := ⟨fun _ => [], fun _ => false, fun _ => .ok []⟩

/-- An engine with no model loaded. -/
def engNoModel : Engine (KNNModel Nat) := ⟨"face_model.pkl", none⟩

/-- A training directory `people` with subdirectories `alice` and `bob`,
each holding one image with exactly one detectable face. -/
def fsTrain : FS Nat :=
  ⟨fun p => if p = "people" then ["alice", "bob"]
    else if p = "people/alice" then ["face.jpg"]
    else if p = "people/bob" then ["face.jpg"] else [],
   fun _ => true,
   fun p => if p = "people/alice/face.jpg" then .ok [0]
    else if p = "people/bob/face.jpg" then .ok [1] else .ok []⟩

/-- The embedding found in each person's training image of `fsTrain`. -/
def encTrain : String → Nat := fun n => if n = "alice" then 0 else 1

/-! Helper lemmas. -/

/-- Membership is invariant under first-occurrence deduplication. -/
theorem mem_firstDedup : ∀ (l : List String) (a : String), a ∈ firstDedup l ↔ a ∈ l
  | [], a => by simp [firstDedup]
  | x :: xs, a => by
    rw [firstDedup]
    by_cases hax : a = x
    · simp [hax]
    · rw [List.mem_cons, List.mem_cons,
        mem_firstDedup (xs.filter (fun y => y ≠ x)) a, List.mem_filter]
      simp [hax]
termination_by l => l.length
decreasing_by
  simp only [List.length_cons]
  exact Nat.lt_succ_of_le (List.length_filter_le _ _)

/-- First-occurrence deduplication yields a duplicate-free list. -/
theorem nodup_firstDedup : ∀ l : List String, (firstDedup l).Nodup
  | [] => by simp [firstDedup]
  | x :: xs => by
    rw [firstDedup]
    refine List.nodup_cons.mpr ⟨?_, nodup_firstDedup (xs.filter (fun y => y ≠ x))⟩
    rw [mem_firstDedup]
    simp
termination_by l => l.length
decreasing_by
  simp only [List.length_cons]
  exact Nat.lt_succ_of_le (List.length_filter_le _ _)

/-- Folding `addNew` over a label sequence appends exactly the
first-occurrence deduplication of the labels not already accumulated. -/
theorem foldl_addNew : ∀ (l acc : List String),
    l.foldl addNew acc = acc ++ firstDedup (l.filter (fun y => y ∉ acc))
  | [], acc => by simp [firstDedup]
  | x :: xs, acc => by
    rw [List.foldl_cons]
    by_cases hx : x ∈ acc
    · rw [show addNew acc x = acc from if_pos hx, foldl_addNew xs acc]
      congr 2
      rw [List.filter_cons]
      simp [hx]
    · rw [show addNew acc x = acc ++ [x] from if_neg hx, foldl_addNew xs (acc ++ [x])]
      rw [List.filter_cons]
      have hxd : (decide (x ∉ acc)) = true := by simpa using hx
      rw [hxd, if_pos rfl]
      rw [firstDedup, List.filter_filter]
      have hfun : ∀ y : String,
          (decide (y ≠ x) && decide (y ∉ acc)) = decide (y ∉ acc ++ [x]) := by
        intro y
        by_cases h1 : y = x <;> by_cases h2 : y ∈ acc <;>
          simp [h1, h2, List.mem_append]
      rw [funext hfun, List.append_assoc]
      rfl

/-- With a classifier that never raises, the face loop succeeds and folds
`addNew` over the matched-label sequence. -/
theorem recognizeLoop_pure (d : α → ℚ) (p : α → String) (tol : ℚ) :
    ∀ (encs : List α) (acc : List String),
    recognizeLoop (pureClassifier d p) tol encs acc
      = .ok ((matchedLabels d p tol encs).foldl addNew acc)
  | [], acc => by simp [recognizeLoop, matchedLabels]
  | e :: rest, acc => by
    have hcons : matchedLabels d p tol (e :: rest)
        = if d e ≤ tol then p e :: matchedLabels d p tol rest
          else matchedLabels d p tol rest := by
      rw [matchedLabels, List.filterMap_cons]
      by_cases h : d e ≤ tol <;> simp [h, matchedLabels]
    rw [recognizeLoop]
    show (if d e ≤ tol then _ else _) = _
    by_cases h : d e ≤ tol
    · rw [if_pos h]
      show recognizeLoop _ tol rest (if p e ∈ acc then acc else acc ++ [p e]) = _
      rw [recognizeLoop_pure d p tol rest _, hcons, if_pos h, List.foldl_cons]
      rfl
    · rw [if_neg h]
      show recognizeLoop _ tol rest acc = _
      rw [recognizeLoop_pure d p tol rest acc, hcons, if_neg h]

/-- The face loop never produces a duplicate label: the accumulated list
stays duplicate-free. -/
theorem recognizeLoop_nodup (c : Classifier α) (tol : ℚ) :
    ∀ (encs : List α) (acc res : List String),
      acc.Nodup → recognizeLoop c tol encs acc = .ok res → res.Nodup
  | [], acc, res, h, heq => by
    rw [recognizeLoop] at heq
    cases heq
    exact h
  | e :: rest, acc, res, h, heq => by
    rw [recognizeLoop] at heq
    split at heq
    · exact Except.noConfusion heq
    · split at heq
      · split at heq
        · exact Except.noConfusion heq
        · next person_name _ =>
          refine recognizeLoop_nodup c tol rest _ res ?_ heq
          by_cases hmem : person_name ∈ acc
          · simpa [hmem] using h
          · simp [hmem, List.nodup_append, h]
      · exact recognizeLoop_nodup c tol rest acc res h heq

/-- With per-file calls that always succeed, `process_directory` maps the
call over the image files of the listing, in order. -/
theorem process_directory_ok (f : String → List String) (dir : String) :
    ∀ (listing : List String) (acc : List (String × ResultEntry)),
    listing.foldl (processOne (fun p => .ok (f p)) dir) acc
      = acc ++ (listing.filter (fun nm => hasImageExt (pathJoin dir nm))).map
          (fun nm => (nm, Sum.inl (f (pathJoin dir nm))))
  | [], acc => by simp
  | nm :: rest, acc => by
    rw [List.foldl_cons, process_directory_ok f dir rest _, List.filter_cons]
    by_cases h : hasImageExt (pathJoin dir nm) = true
    · simp [processOne, h]
    · simp [processOne, h]

/-- Collecting training data over a directory whose entries are all person
directories holding a single one-face image yields one (embedding, name)
pair per person, in order. -/
theorem collectTraining_aux (fs : FS α) (d img : String) (encOf : String → α) :
    ∀ (names : List String) (acc : List (α × String)),
    (∀ n ∈ names, fs.isDir (pathJoin d n) = true) →
    (∀ n ∈ names, fs.listdir (pathJoin d n) = [img]) →
    (∀ n ∈ names, hasImageExt (pathJoin (pathJoin d n) img) = true) →
    (∀ n ∈ names, fs.loadEnc (pathJoin (pathJoin d n) img) = .ok [encOf n]) →
    names.foldl (trainOnePerson fs d) acc = acc ++ names.map (fun n => (encOf n, n))
  | [], acc, _, _, _, _ => by simp
  | n :: ns, acc, h1, h2, h3, h4 => by
    rw [List.foldl_cons]
    have e1 : trainOnePerson fs d acc n = acc ++ [(encOf n, n)] := by
      rw [trainOnePerson]
      simp only [h1 n (by simp), if_pos, h2 n (by simp)]
      rw [List.foldl_cons, List.foldl_nil, trainOneImage]
      simp only [h3 n (by simp), if_pos, h4 n (by simp)]
    rw [e1, collectTraining_aux fs d img encOf ns _
      (fun m hm => h1 m (List.mem_cons_of_mem n hm))
      (fun m hm => h2 m (List.mem_cons_of_mem n hm))
      (fun m hm => h3 m (List.mem_cons_of_mem n hm))
      (fun m hm => h4 m (List.mem_cons_of_mem n hm))]
    simp

/-- With a loaded classifier that never raises and a successful decode,
`recognize` returns the first-occurrence deduplication of the matched-label
sequence. -/
theorem recognize_pure_eq (d : α → ℚ) (p : α → String) (mp image_path : String)
    (encs : List α) (tol : ℚ) :
    recognize id (Engine.mk mp (some (pureClassifier d p))) (fun _ => .ok encs)
        image_path tol
      = firstDedup (matchedLabels d p tol encs) := by
  have h := recognizeLoop_pure d p tol encs []
  unfold recognize
  dsimp only [id]
  rw [h]
  have hfil : (matchedLabels d p tol encs).filter (fun y => y ∉ ([] : List String))
      = matchedLabels d p tol encs := List.filter_eq_self.mpr (by simp)
  rw [foldl_addNew, hfil, List.nil_append]

/-! Claim theorems. -/

/-- C3: for every loaded classifier and every detected face embedding whose
nearest-neighbour distance equals the tolerance exactly, `recognize` treats
that face as a match (the comparison is `<=`, not `<`) and its predicted
label is in the result. -/
theorem recognize_boundary_match (d : α → ℚ) (p : α → String)
    (mp image_path : String) (encs : List α) (tol : ℚ) (e : α)
    (he : e ∈ encs) (hd : d e = tol) :
    p e ∈ recognize id (Engine.mk mp (some (pureClassifier d p)))
      (fun _ => .ok encs) image_path tol := by
  rw [recognize_pure_eq, mem_firstDedup, matchedLabels, List.mem_filterMap]
  exact ⟨e, he, by rw [hd, if_pos le_rfl]⟩

/-- Witness for C3: a single face at distance exactly `3/5` from an
`alice` sample is recognized as `alice` at tolerance `3/5`. -/
theorem recognize_boundary_match_witness :
    "alice" ∈ recognize id
      (Engine.mk "face_model.pkl"
        (some (pureClassifier (fun _ : Nat => (3 : ℚ)/5) (fun _ => "alice"))))
      (fun _ => .ok [0]) "img.jpg" (3/5) :=
  recognize_boundary_match (fun _ : Nat => (3 : ℚ)/5) (fun _ => "alice")
    "face_model.pkl" "img.jpg" [0] (3/5) 0 (by simp) rfl

/-- C4: with no classifier loaded, `recognize` returns the empty list for
every image path and tolerance, and does not raise. -/
theorem recognize_no_model_empty (beh : κ → Classifier α) (mp : String)
    (loadEnc : String → Except String (List α)) (image_path : String) (tol : ℚ) :
    recognize beh (Engine.mk mp none) loadEnc image_path tol = [] := rfl

/-- C7: the list returned by `recognize` contains each label at most once,
whatever the classifier, environment, image and tolerance. -/
theorem recognize_result_nodup (beh : κ → Classifier α) (eng : Engine κ)
    (loadEnc : String → Except String (List α)) (image_path : String) (tol : ℚ) :
    (recognize beh eng loadEnc image_path tol).Nodup := by
  unfold recognize
  split
  · exact List.nodup_nil
  · split
    · exact List.nodup_nil
    · split
      · exact List.nodup_nil
      · next people heq =>
        exact recognizeLoop_nodup _ tol _ [] people List.nodup_nil heq

/-- C8: if an exception is raised during decode/detect/encode
(`loadEnc` fails) or during per-face classification (the face loop fails),
`recognize` returns the empty list — never a partial result. -/
theorem recognize_exception_empty (beh : κ → Classifier α) (eng : Engine κ)
    (loadEnc : String → Except String (List α)) (image_path : String) (tol : ℚ)
    (m : κ) (hm : eng.model = some m)
    (h : (∃ msg, loadEnc image_path = .error msg) ∨
         (∃ encs msg, loadEnc image_path = .ok encs ∧
            recognizeLoop (beh m) tol encs [] = .error msg)) :
    recognize beh eng loadEnc image_path tol = [] := by
  unfold recognize
  rw [hm]
  rcases h with ⟨msg, hmsg⟩ | ⟨encs, msg, h1, h2⟩
  · rw [hmsg]
  · dsimp only
    rw [h1]
    dsimp only
    rw [h2]

/-- Witness for C8: the first face matches `alice`, classification of the
second face raises, and the whole call returns `[]` rather than the
partial list `["alice"]`. -/
theorem recognize_exception_empty_witness :
    recognize (fun _ : Unit => clfBoom) engUnit (fun _ => .ok [0, 1])
      "img.jpg" (3/5) = [] :=
  recognize_exception_empty (fun _ : Unit => clfBoom) engUnit
    (fun _ => .ok [0, 1]) "img.jpg" (3/5) () rfl
    (Or.inr ⟨[0, 1], "boom", rfl, by
      simp [recognizeLoop, clfBoom]
      norm_num⟩)

/-- C9: the result of `recognize` preserves first-occurrence order — it
equals the independent first-occurrence deduplication of the sequence of
matched labels, taken in the order the faces are detected. -/
theorem recognize_first_occurrence_order (d : α → ℚ) (p : α → String)
    (mp image_path : String) (encs : List α) (tol : ℚ) :
    recognize id (Engine.mk mp (some (pureClassifier d p))) (fun _ => .ok encs)
        image_path tol
      = firstDedup (matchedLabels d p tol encs) :=
  recognize_pure_eq d p mp image_path encs tol

/-- C5: a training run that collects zero embeddings returns count 0,
leaves the model file untouched and leaves the in-memory classifier
unchanged. -/
theorem train_zero_embeddings (eng : Engine (KNNModel α))
    (file : Option (KNNModel α)) (fs : FS α) (training_dir : String)
    (h : collectTraining fs training_dir = []) :
    train eng file fs training_dir = (0, eng, file) := by
  unfold train
  rw [h]
  rfl

/-- Witness for C5: training over an empty directory reports 0 and changes
neither the engine nor the file. -/
theorem train_zero_embeddings_witness :
    train engNoModel none fsEmptyT "training" = (0, engNoModel, none) :=
  train_zero_embeddings engNoModel none fsEmptyT "training" rfl

/-- C6: training over a directory of N person subdirectories, each holding
one image with one detectable face, reports N, fits a KNN classifier with
`n_neighbors = min 5 N` whose samples take the first (only) embedding per
image labelled with the N subdirectory names, and persists it. -/
theorem train_single_face_per_person (eng : Engine (KNNModel α))
    (file : Option (KNNModel α)) (fs : FS α) (d img : String)
    (names : List String) (encOf : String → α)
    (hsub : fs.listdir d = names)
    (hdir : ∀ n ∈ names, fs.isDir (pathJoin d n) = true)
    (hfiles : ∀ n ∈ names, fs.listdir (pathJoin d n) = [img])
    (hext : ∀ n ∈ names, hasImageExt (pathJoin (pathJoin d n) img) = true)
    (henc : ∀ n ∈ names, fs.loadEnc (pathJoin (pathJoin d n) img) = .ok [encOf n])
    (hne : names ≠ []) :
    train eng file fs d
      = (names.length,
         { eng with model := some ⟨min 5 names.length,
             names.map (fun n => (encOf n, n))⟩ },
         some ⟨min 5 names.length, names.map (fun n => (encOf n, n))⟩) := by
  have hc : collectTraining fs d = names.map (fun n => (encOf n, n)) := by
    rw [collectTraining, hsub,
      collectTraining_aux fs d img encOf names [] hdir hfiles hext henc]
    simp
  simp only [train, hc, List.length_map]
  rw [if_pos (List.length_pos.mpr hne)]

/-- Witness for C6: training over `fsTrain` (persons `alice` and `bob`)
reports 2 and stores a classifier with `n_neighbors = 2` and one labelled
sample per person. -/
theorem train_single_face_witness :
    train engNoModel none fsTrain "people"
      = (2, Engine.mk "face_model.pkl" (some ⟨2, [(0, "alice"), (1, "bob")]⟩),
         some ⟨2, [(0, "alice"), (1, "bob")]⟩) := by
  have h := train_single_face_per_person engNoModel none fsTrain "people"
    "face.jpg" ["alice", "bob"] encTrain rfl
    (fun n _ => rfl)
    (by intro n hn; fin_cases hn <;> rfl)
    (by intro n hn; fin_cases hn <;> decide)
    (by intro n hn; fin_cases hn <;> rfl)
    (by simp)
  exact h

/-- C10: the engine constructor never raises; with a missing model file or
a failing deserialization the engine starts untrained (`model = None`). -/
theorem initEngine_untrained_on_failure (κ : Type) (mp : String)
    (fileExists : Bool) (content : Except String κ) :
    (fileExists = false → (initEngine κ mp fileExists content).model = none) ∧
    (∀ msg, content = .error msg →
      (initEngine κ mp fileExists content).model = none) := by
  constructor
  · intro h
    simp [initEngine, h]
  · intro msg h
    cases fileExists <;> simp [initEngine, h]

/-- Witness for C10: a present but corrupt model file leaves the engine
untrained. -/
theorem initEngine_untrained_witness :
    (initEngine Unit "face_model.pkl" true (.error "bad pickle")).model = none :=
  (initEngine_untrained_on_failure Unit "face_model.pkl" true
    (.error "bad pickle")).2 "bad pickle" rfl

/-- Counterexample to C1 as stated: in the directory `imgs` with one corrupt
image `bad.jpg` among two valid ones, the batch result keys `bad.jpg` to
the empty label list, not to an `{"error": message}` entry — `recognize`
catches the decode exception internally and returns `[]`, so the error
branch of `process_directory` is not reached. -/
theorem process_directory_corrupt_counterexample :
    process_directory recBatch "imgs" (fsBatch.listdir "imgs")
      = [("a.jpg", Sum.inl ["alice"]), ("bad.jpg", Sum.inl []),
         ("c.jpg", Sum.inl ["alice"])]
    ∧ ¬ ∃ msg, ("bad.jpg", Sum.inr msg)
        ∈ process_directory recBatch "imgs" (fsBatch.listdir "imgs") := by
  have he : process_directory recBatch "imgs" (fsBatch.listdir "imgs")
      = [("a.jpg", Sum.inl ["alice"]), ("bad.jpg", Sum.inl []),
         ("c.jpg", Sum.inl ["alice"])] := by
    simp [process_directory, processOne, recBatch, recognize, recognizeLoop,
      behUnit, clfAlice, engUnit, fsBatch, String.reduceEq,
      show pathJoin "imgs" "a.jpg" = "imgs/a.jpg" from rfl,
      show pathJoin "imgs" "bad.jpg" = "imgs/bad.jpg" from rfl,
      show pathJoin "imgs" "c.jpg" = "imgs/c.jpg" from rfl,
      show hasImageExt "imgs/a.jpg" = true from by decide,
      show hasImageExt "imgs/bad.jpg" = true from by decide,
      show hasImageExt "imgs/c.jpg" = true from by decide]
    norm_num
  refine ⟨he, ?_⟩
  rintro ⟨msg, hmem⟩
  rw [he] at hmem
  simp at hmem

/-- C1 (amended): `process_directory` processes the image files of the
listing in order and stores an `{"error": message}` entry only when the
per-file call itself raises; with the script's engine the per-file call is
`recognize`, which catches per-image exceptions and returns `[]`, so a
corrupt image among valid ones yields an empty label entry under its own
filename — no entry omitted, reordered, or marked as an error. -/
theorem process_directory_batch (beh : κ → Classifier α) (eng : Engine κ)
    (fs : FS α) (directory_path : String) :
    process_directory
        (fun p => .ok (recognize beh eng fs.loadEnc p (3/5)))
        directory_path (fs.listdir directory_path)
      = ((fs.listdir directory_path).filter
          (fun nm => hasImageExt (pathJoin directory_path nm))).map
          (fun nm => (nm, Sum.inl
            (recognize beh eng fs.loadEnc (pathJoin directory_path nm) (3/5))))
    ∧ (∀ p msg tol, fs.loadEnc p = .error msg →
        recognize beh eng fs.loadEnc p tol = []) := by
  constructor
  · rw [process_directory, process_directory_ok]
    simp
  · intro p msg tol h
    unfold recognize
    cases hm : eng.model with
    | none => rfl
    | some m =>
      dsimp only
      rw [h]

/-- Witness for C1 (amended): the corrupt file's per-file call returns
`ok []`, i.e. `recognize` swallows the decode failure. -/
theorem process_directory_batch_witness :
    recognize behUnit engUnit fsBatch.loadEnc "imgs/bad.jpg" (3/5) = [] :=
  (process_directory_batch behUnit engUnit fsBatch "imgs").2 "imgs/bad.jpg"
    "unable to decode" (3/5) rfl

/-- Counterexample to C2 as stated: with `--process-dir imgs
--tolerance 0.3` and a face at nearest-neighbour distance `1/2`, the script
labels the file `alice` because the per-file recognition runs at the
default tolerance `0.6`; performing it with the command-line tolerance
`0.3` would yield no label, so the dispatched operation does not use the
flag. -/
theorem mainRun_tolerance_ignored_counterexample :
    mainRun argsPD fsOne behKNN engKNN none
      = .processed [("a.jpg", Sum.inl ["alice"])]
    ∧ process_directory
        (fun p => .ok (recognize behKNN engKNN fsOne.loadEnc p argsPD.tolerance))
        "imgs" (fsOne.listdir "imgs")
      = [("a.jpg", Sum.inl [])]
    ∧ mainRun argsPD fsOne behKNN engKNN none
      ≠ .processed (process_directory
          (fun p => .ok (recognize behKNN engKNN fsOne.loadEnc p argsPD.tolerance))
          "imgs" (fsOne.listdir "imgs")) := by
  have h1 : mainRun argsPD fsOne behKNN engKNN none
      = .processed [("a.jpg", Sum.inl ["alice"])] := by
    simp [mainRun, truthyS, argsPD, process_directory, processOne, recognize,
      recognizeLoop, behKNN, clfAlice, engKNN, fsOne, String.reduceEq,
      show pathJoin "imgs" "a.jpg" = "imgs/a.jpg" from rfl,
      show hasImageExt "imgs/a.jpg" = true from by decide]
    norm_num
  have h2 : process_directory
        (fun p => .ok (recognize behKNN engKNN fsOne.loadEnc p argsPD.tolerance))
        "imgs" (fsOne.listdir "imgs")
      = [("a.jpg", Sum.inl [])] := by
    simp [argsPD, process_directory, processOne, recognize, recognizeLoop,
      behKNN, clfAlice, engKNN, fsOne, String.reduceEq,
      show pathJoin "imgs" "a.jpg" = "imgs/a.jpg" from rfl,
      show hasImageExt "imgs/a.jpg" = true from by decide]
    norm_num
  refine ⟨h1, h2, ?_⟩
  rw [h1, h2]
  simp

/-- C2 (amended): `--tolerance` modifies only the `--recognize` branch;
under `--process-dir` every per-file recognition runs with the default
tolerance `0.6` (modelled `3/5`), and the batch output is independent of
the flag's value. -/
theorem mainRun_tolerance_scope (args : Args) (fs : FS α)
    (beh : KNNModel α → Classifier α) (eng : Engine (KNNModel α))
    (file : Option (KNNModel α))
    (hT : truthyS args.train = false) (hR : truthyS args.recognize = false)
    (hP : truthyS args.process_dir = true) :
    mainRun args fs beh eng file
      = .processed (process_directory
          (fun p => .ok (recognize beh eng fs.loadEnc p (3/5)))
          (args.process_dir.getD "") (fs.listdir (args.process_dir.getD "")))
    ∧ ∀ t : ℚ, mainRun { args with tolerance := t } fs beh eng file
        = mainRun args fs beh eng file := by
  have h1 : mainRun args fs beh eng file
      = .processed (process_directory
          (fun p => .ok (recognize beh eng fs.loadEnc p (3/5)))
          (args.process_dir.getD "") (fs.listdir (args.process_dir.getD ""))) := by
    simp [mainRun, hT, hR, hP]
  refine ⟨h1, fun t => ?_⟩
  have h2 : mainRun { args with tolerance := t } fs beh eng file
      = .processed (process_directory
          (fun p => .ok (recognize beh eng fs.loadEnc p (3/5)))
          (args.process_dir.getD "") (fs.listdir (args.process_dir.getD ""))) := by
    simp [mainRun, hT, hR, hP]
  rw [h1, h2]

/-- Witness for C2 (amended): with `--process-dir imgs --tolerance 0.3` the
output equals a batch run at the default tolerance `0.6`. -/
theorem mainRun_tolerance_scope_witness :
    mainRun argsPD fsOne behKNN engKNN none
      = .processed (process_directory
          (fun p => .ok (recognize behKNN engKNN fsOne.loadEnc p (3/5)))
          "imgs" (fsOne.listdir "imgs")) :=
  (mainRun_tolerance_scope argsPD fsOne behKNN engKNN none rfl rfl rfl).1

end FaceRec
